import Mathlib

/-!
Verification of the derived-statistics Aggregator and the transaction
write path of the Daily-Expenses-Tracker app (src/src/App.jsx).

The embedding models JavaScript number values as integers together with
an explicit NaN marker: the coercion Number(x) yields NaN on absent
fields and on non-numeric strings, and NaN propagates through addition
and subtraction.  Object lookup, the falsiness test used by the
byCategory reducer (undefined, 0 and NaN are falsy), the snapshot sort
comparator and the create-transaction guard are all translated directly
from the source.
-/

/-- A JavaScript number as seen by the aggregation code: either NaN or an
exact numeric value (amounts in this development are integral). -/
inductive JSNum where
  | nan
  | num (v : ℤ)
deriving DecidableEq

/-- JavaScript addition on numbers: NaN propagates. -/
def jadd : JSNum → JSNum → JSNum
  | JSNum.num a, JSNum.num b => JSNum.num (a + b)
  | _, _ => JSNum.nan

/-- JavaScript subtraction on numbers: NaN propagates. -/
def jsub : JSNum → JSNum → JSNum
  | JSNum.num a, JSNum.num b => JSNum.num (a - b)
  | _, _ => JSNum.nan

/-- The possible shapes of a stored amount field, as distinguished by the
coercion Number(x): a number, a numeric string, a non-numeric string, or
an absent field (undefined). -/
inductive JSVal where
  | ofNum (n : JSNum)
  | numStr (v : ℤ)
  | badStr
  | undef
deriving DecidableEq

/-- JavaScript Number(x): numbers pass through, numeric strings parse,
non-numeric strings and undefined give NaN. -/
def toNumber : JSVal → JSNum
  | JSVal.ofNum n => n
  | JSVal.numStr v => JSNum.num v
  | JSVal.badStr => JSNum.nan
  | JSVal.undef => JSNum.nan

/-- One transaction document as held in the synced snapshot. -/
structure Transaction where
  type : String
  category : String
  amount : JSVal
  date : ℤ
  createdAt : ℤ
deriving DecidableEq

/-- The reduce step of the two total accumulators in stats:
acc + Number(curr.amount). -/
def addAmount (acc : JSNum) (curr : Transaction) : JSNum :=
  jadd acc (toNumber curr.amount)

/-- Lookup in a JavaScript object modelled as an association list;
none models an absent key (undefined). -/
def getVal : List (String × JSNum) → String → Option JSNum
  | [], _ => none
  | (k, v) :: rest, c => if k = c then some v else getVal rest c

/-- Assignment in a JavaScript object modelled as an association list;
a fresh key is appended in insertion order. -/
def setVal : List (String × JSNum) → String → JSNum → List (String × JSNum)
  | [], c, v => [(c, v)]
  | (k, w) :: rest, c, v =>
    if k = c then (k, v) :: rest else (k, w) :: setVal rest c v

/-- The guard if (!acc[curr.category]) acc[curr.category] = 0 of the
byCategory reducer: a falsy current entry (absent, NaN or 0) is replaced
by 0, a truthy numeric entry is kept. -/
def resetFalsy : Option JSNum → JSNum
  | some (JSNum.num q) => if q = 0 then JSNum.num 0 else JSNum.num q
  | _ => JSNum.num 0

/-- The byCategory reduce step of stats:
if (!acc[curr.category]) acc[curr.category] = 0;
acc[curr.category] += Number(curr.amount). -/
def byCategoryStep (acc : List (String × JSNum)) (curr : Transaction) :
    List (String × JSNum) :=
  setVal acc curr.category
    (jadd (resetFalsy (getVal acc curr.category)) (toNumber curr.amount))

/-- The Statistics value returned by the stats memo. -/
structure Stats where
  totalCredit : JSNum
  totalDebit : JSNum
  savings : JSNum
  byCategory : List (String × JSNum)
deriving DecidableEq

/-- The stats computation of App.jsx lines 135-153, translated clause by
clause: two filter-reduce totals, their difference, and the byCategory
object reduce. -/
def stats (transactions : List Transaction) : Stats :=
  let totalCredit :=
    (transactions.filter (fun t => t.type == "Credit")).foldl addAmount
      (JSNum.num 0)
  let totalDebit :=
    (transactions.filter (fun t => t.type == "Debit")).foldl addAmount
      (JSNum.num 0)
  let savings := jsub totalCredit totalDebit
  let byCategory := transactions.foldl byCategoryStep []
  { totalCredit := totalCredit, totalDebit := totalDebit,
    savings := savings, byCategory := byCategory }

/-- The in-memory sort comparator of the snapshot handler:
new Date(b.date) - new Date(a.date) || b.createdAt - a.createdAt,
with dates modelled by their numeric time values. -/
def txComparator (a b : Transaction) : ℤ :=
  if b.date - a.date ≠ 0 then b.date - a.date else b.createdAt - a.createdAt

/-- The snapshot handler of App.jsx lines 108-124: it maps the snapshot
documents to transaction records and sorts them newest first; no record
is dropped and no bound is applied. -/
def subscribeSnapshot (docs : List Transaction) : List Transaction :=
  docs.mergeSort (fun a b => decide (txComparator a b ≤ 0))

/-- The form amount state: the empty string, a numeric string, or a
non-numeric string. -/
inductive FormAmount where
  | empty
  | numStr (v : ℤ)
  | badStr
deriving DecidableEq

/-- Number(x) on the form amount string. -/
def formToNumber : FormAmount → JSNum
  | FormAmount.empty => JSNum.num 0
  | FormAmount.numStr v => JSNum.num v
  | FormAmount.badStr => JSNum.nan

/-- The observable outcome of one handleAddTransaction call: the document
written to the store (if any), the amount form state afterwards, the
notification shown (if any), and the active tab afterwards. -/
structure AddResult where
  written : Option Transaction
  amountAfter : FormAmount
  notice : Option String
  activeTab : String
deriving DecidableEq

/-- handleAddTransaction of App.jsx lines 155-179: guard
if (!amount || !user) return; then build the document with
amount: Number(amount) and write it; on success clear the form, show
"Saved to cloud!" and switch to the dashboard tab; on a write error show
"Error saving data" and leave the rest unchanged. -/
def handleAddTransaction (amount : FormAmount) (hasUser : Bool)
    (ty cat : String) (today createdAt : ℤ) (tab : String)
    (addDocOk : Bool) : AddResult :=
  if amount = FormAmount.empty ∨ hasUser = false then
    { written := none, amountAfter := amount, notice := none, activeTab := tab }
  else
    let newTransaction : Transaction :=
      { type := ty, category := cat,
        amount := JSVal.ofNum (formToNumber amount),
        date := today, createdAt := createdAt }
    if addDocOk then
      { written := some newTransaction, amountAfter := FormAmount.empty,
        notice := some "Saved to cloud!", activeTab := "dashboard" }
    else
      { written := none, amountAfter := amount,
        notice := some "Error saving data", activeTab := tab }

/-- Spec-side: the numeric value of a transaction amount (0 on NaN; only
used under the hypothesis that the amount is numeric). -/
def amountZ (t : Transaction) : ℤ :=
  match toNumber t.amount with
  | JSNum.num q => q
  | JSNum.nan => 0

/-- Spec-side: the amount field coerces to an actual number, not NaN. -/
def numericA (t : Transaction) : Bool :=
  match toNumber t.amount with
  | JSNum.num _ => true
  | JSNum.nan => false

/-- Spec-side: the plain arithmetic sum of the amounts of a list of
transactions. -/
def sumZ (l : List Transaction) : ℤ := (l.map amountZ).sum

/-- Spec-side: the sum of the amounts of the transactions bearing a given
category, regardless of type. -/
def catSum (ts : List Transaction) (c : String) : ℤ :=
  sumZ (ts.filter (fun t => t.category == c))

/-- Replace an amount by its coercion to a number; the aggregation must
not distinguish a transaction from its coerced form. -/
def coerceTx (t : Transaction) : Transaction :=
  { t with amount := JSVal.ofNum (toNumber t.amount) }

/-- Scenario A of the spec: one salary credit and two debits. -/
def sampleA : List Transaction :=
  [ { type := "Credit", category := "Salary",
      amount := JSVal.ofNum (JSNum.num 1000), date := 0, createdAt := 0 },
    { type := "Debit", category := "Food",
      amount := JSVal.ofNum (JSNum.num 200), date := 0, createdAt := 1 },
    { type := "Debit", category := "Rent",
      amount := JSVal.ofNum (JSNum.num 300), date := 0, createdAt := 2 } ]

/-- Scenario B of the spec: two Food debits and no credit. -/
def sampleB : List Transaction :=
  [ { type := "Debit", category := "Food",
      amount := JSVal.ofNum (JSNum.num 50), date := 0, createdAt := 0 },
    { type := "Debit", category := "Food",
      amount := JSVal.ofNum (JSNum.num 75), date := 0, createdAt := 1 } ]

/-- A Bills debit whose amount is a non-numeric string. -/
def badBill : Transaction :=
  { type := "Debit", category := "Bills", amount := JSVal.badStr,
    date := 0, createdAt := 0 }

/-- A Food debit of amount 1. -/
def unitDebit : Transaction :=
  { type := "Debit", category := "Food",
    amount := JSVal.ofNum (JSNum.num 1), date := 0, createdAt := 0 }

/-! Basic lemmas about the JS arithmetic embedding -/

theorem jadd_nan_left (b : JSNum) : jadd JSNum.nan b = JSNum.nan := by
  cases b <;> rfl

theorem jadd_nan_right (a : JSNum) : jadd a JSNum.nan = JSNum.nan := by
  cases a <;> rfl

theorem toNumber_eq_of_numeric (t : Transaction) (h : numericA t = true) :
    toNumber t.amount = JSNum.num (amountZ t) := by
  unfold numericA at h
  unfold amountZ
  cases h2 : toNumber t.amount with
  | nan => rw [h2] at h; exact Bool.noConfusion h
  | num q => rfl

theorem foldl_addAmount_num (l : List Transaction) :
    ∀ a : ℤ, (∀ t ∈ l, numericA t = true) →
      l.foldl addAmount (JSNum.num a) = JSNum.num (a + sumZ l) := by
  induction l with
  | nil => intro a _; simp [sumZ]
  | cons t ts ih =>
    intro a h
    have ht := toNumber_eq_of_numeric t (h t (List.mem_cons_self t ts))
    have hr : ∀ x ∈ ts, numericA x = true :=
      fun x hx => h x (List.mem_cons_of_mem t hx)
    simp only [List.foldl_cons, addAmount, ht, jadd]
    rw [ih (a + amountZ t) hr]
    simp [sumZ, add_assoc]

theorem foldl_addAmount_nan (l : List Transaction) :
    l.foldl addAmount JSNum.nan = JSNum.nan := by
  induction l with
  | nil => rfl
  | cons t ts ih =>
    simp only [List.foldl_cons, addAmount, jadd_nan_left]
    exact ih

theorem foldl_addAmount_mem_nan (l : List Transaction) (t : Transaction)
    (hm : t ∈ l) (hn : toNumber t.amount = JSNum.nan) :
    ∀ a : JSNum, l.foldl addAmount a = JSNum.nan := by
  induction l with
  | nil => cases hm
  | cons x xs ih =>
    intro a
    rcases List.mem_cons.mp hm with h1 | h2
    · subst h1
      simp only [List.foldl_cons, addAmount, hn, jadd_nan_right]
      exact foldl_addAmount_nan xs
    · simp only [List.foldl_cons]
      exact ih h2 _

theorem foldl_addAmount_perm (l1 l2 : List Transaction)
    (h : List.Perm l1 l2) :
    ∀ a : JSNum, l1.foldl addAmount a = l2.foldl addAmount a := by
  induction h with
  | nil => intro a; rfl
  | cons x _ ih => intro a; simp only [List.foldl_cons]; exact ih _
  | swap x y l =>
    intro a
    simp only [List.foldl_cons]
    have hc : addAmount (addAmount a y) x = addAmount (addAmount a x) y := by
      unfold addAmount
      cases a with
      | nan => simp [jadd_nan_left]
      | num v =>
        cases hx : toNumber x.amount <;> cases hy : toNumber y.amount <;>
          simp [jadd, jadd_nan_left, jadd_nan_right, Int.add_right_comm]
    rw [hc]
  | trans _ _ ih1 ih2 => intro a; rw [ih1 a, ih2 a]

/-! Lemmas about the object embedding used by byCategory -/

theorem getVal_setVal_self (l : List (String × JSNum)) (k : String) (v : JSNum) :
    getVal (setVal l k v) k = some v := by
  induction l with
  | nil => simp [setVal, getVal]
  | cons p rest ih =>
    obtain ⟨k2, w⟩ := p
    by_cases h : k2 = k
    · simp [setVal, h, getVal]
    · simp [setVal, h, getVal, ih]

theorem getVal_setVal_ne (l : List (String × JSNum)) (k c : String) (v : JSNum)
    (h : c ≠ k) : getVal (setVal l k v) c = getVal l c := by
  have hk : k ≠ c := fun hh => h hh.symm
  induction l with
  | nil => simp [setVal, getVal, hk]
  | cons p rest ih =>
    obtain ⟨k2, w⟩ := p
    by_cases h2 : k2 = k
    · subst h2
      simp [setVal, getVal, hk]
    · simp only [setVal, if_neg h2, getVal]
      by_cases h3 : k2 = c
      · simp [h3]
      · simp [h3, ih]

/-! The byCategory accumulator computes per-category sums -/

theorem catSum_append_single (l : List Transaction) (t : Transaction)
    (c : String) :
    catSum (l ++ [t]) c = catSum l c + (if t.category = c then amountZ t else 0) := by
  by_cases h : t.category = c
  · simp [catSum, sumZ, List.filter_append, List.filter_cons, h]
  · simp [catSum, sumZ, List.filter_append, List.filter_cons, h]

theorem catSum_of_not_mem (l : List Transaction) (c : String)
    (h : c ∉ l.map Transaction.category) : catSum l c = 0 := by
  have hf : l.filter (fun t => t.category == c) = [] := by
    rw [List.filter_eq_nil_iff]
    intro a ha hcontr
    exact h (List.mem_map.mpr ⟨a, ha, by simpa using hcontr⟩)
  simp [catSum, sumZ, hf]

theorem getVal_byCategoryStep_self (acc : List (String × JSNum))
    (t : Transaction) :
    getVal (byCategoryStep acc t) t.category =
      some (jadd (resetFalsy (getVal acc t.category)) (toNumber t.amount)) := by
  unfold byCategoryStep
  exact getVal_setVal_self _ _ _

theorem getVal_byCategoryStep_ne (acc : List (String × JSNum))
    (t : Transaction) (c : String) (h : c ≠ t.category) :
    getVal (byCategoryStep acc t) c = getVal acc c := by
  unfold byCategoryStep
  exact getVal_setVal_ne _ _ _ _ h

theorem byCategory_spec (ts : List Transaction)
    (h : ∀ t ∈ ts, numericA t = true) (c : String) :
    getVal (ts.foldl byCategoryStep []) c =
      if c ∈ ts.map Transaction.category then some (JSNum.num (catSum ts c))
      else none := by
  induction ts using List.reverseRecOn with
  | nil => simp [getVal, catSum, sumZ]
  | append_singleton l t ih =>
    have hl : ∀ x ∈ l, numericA x = true := fun x hx => h x (by simp [hx])
    have ht : numericA t = true := h t (by simp)
    have htn := toNumber_eq_of_numeric t ht
    have ihc := ih hl
    rw [List.foldl_append]
    simp only [List.foldl_cons, List.foldl_nil]
    by_cases hc : c = t.category
    · subst hc
      rw [getVal_byCategoryStep_self, htn, ihc]
      by_cases hmem : t.category ∈ l.map Transaction.category
      · rw [if_pos hmem]
        have hrhs : t.category ∈ (l ++ [t]).map Transaction.category := by
          simp [List.map_append, hmem]
        rw [if_pos hrhs, catSum_append_single]
        by_cases hz : catSum l t.category = 0
        · simp [resetFalsy, jadd, hz]
        · simp [resetFalsy, jadd, hz]
      · rw [if_neg hmem]
        have hrhs : t.category ∈ (l ++ [t]).map Transaction.category := by simp
        rw [if_pos hrhs, catSum_append_single, catSum_of_not_mem l _ hmem]
        simp [resetFalsy, jadd]
    · have hct : t.category ≠ c := fun hh => hc hh.symm
      rw [getVal_byCategoryStep_ne _ _ _ hc, ihc, catSum_append_single,
        if_neg hct, add_zero]
      have hmm : (c ∈ (l ++ [t]).map Transaction.category) ↔
          c ∈ l.map Transaction.category := by
        simp [List.map_append, hc]
      simp only [hmm]

/-! Projections of the stats record -/

theorem stats_totalCredit (ts : List Transaction) :
    (stats ts).totalCredit =
      (ts.filter (fun t => t.type == "Credit")).foldl addAmount (JSNum.num 0) :=
  rfl

theorem stats_totalDebit (ts : List Transaction) :
    (stats ts).totalDebit =
      (ts.filter (fun t => t.type == "Debit")).foldl addAmount (JSNum.num 0) :=
  rfl

theorem stats_savings (ts : List Transaction) :
    (stats ts).savings = jsub (stats ts).totalCredit (stats ts).totalDebit :=
  rfl

theorem stats_byCategory (ts : List Transaction) :
    (stats ts).byCategory = ts.foldl byCategoryStep [] :=
  rfl

/-! Claims C1, C2, C3, C6 about the Aggregator -/

/-- Claim C1: for every input sequence of transactions, totalCredit equals
the sum of the amount fields over exactly the transactions whose type is
Credit, and totalDebit equals the sum of the amount fields over exactly
the transactions whose type is Debit. -/
theorem claim_C1 (ts : List Transaction) (h : ∀ t ∈ ts, numericA t = true) :
    (stats ts).totalCredit =
      JSNum.num (sumZ (ts.filter (fun t => t.type == "Credit"))) ∧
    (stats ts).totalDebit =
      JSNum.num (sumZ (ts.filter (fun t => t.type == "Debit"))) := by
  constructor
  · rw [stats_totalCredit, foldl_addAmount_num _ 0
      (fun t htm => h t (List.mem_of_mem_filter htm))]
    rw [zero_add]
  · rw [stats_totalDebit, foldl_addAmount_num _ 0
      (fun t htm => h t (List.mem_of_mem_filter htm))]
    rw [zero_add]

theorem claim_C1_witness :
    (stats sampleA).totalCredit =
      JSNum.num (sumZ (sampleA.filter (fun t => t.type == "Credit"))) ∧
    (stats sampleA).totalDebit =
      JSNum.num (sumZ (sampleA.filter (fun t => t.type == "Debit"))) :=
  claim_C1 sampleA (by decide)

/-- Claim C2: for every input sequence and every category string c,
byCategory maps c to the sum of amount over all transactions bearing
category c regardless of their type, and byCategory has entries for
exactly the categories present in the input. -/
theorem claim_C2 (ts : List Transaction) (h : ∀ t ∈ ts, numericA t = true)
    (c : String) :
    getVal (stats ts).byCategory c =
      if c ∈ ts.map Transaction.category then some (JSNum.num (catSum ts c))
      else none := by
  rw [stats_byCategory]
  exact byCategory_spec ts h c

theorem claim_C2_witness :
    getVal (stats sampleA).byCategory "Salary" =
      (if "Salary" ∈ sampleA.map Transaction.category
       then some (JSNum.num (catSum sampleA "Salary")) else none) :=
  claim_C2 sampleA (by decide) "Salary"

/-- Claim C3: for every input sequence, savings equals
totalCredit - totalDebit exactly, and savings may be negative. -/
theorem claim_C3 :
    (∀ ts : List Transaction,
      (stats ts).savings = jsub (stats ts).totalCredit (stats ts).totalDebit) ∧
    (∃ ts : List Transaction, ∃ q : ℤ,
      q < 0 ∧ (stats ts).savings = JSNum.num q) := by
  constructor
  · intro ts
    rfl
  · exact ⟨sampleB, -125, by decide, by decide⟩

/-- Claim C6: for the empty input sequence, the Aggregator returns
totalCredit = 0, totalDebit = 0, savings = 0 and an empty byCategory
mapping. -/
theorem claim_C6 :
    stats [] =
      { totalCredit := JSNum.num 0, totalDebit := JSNum.num 0,
        savings := JSNum.num 0, byCategory := [] } := by
  decide

/-! Claim C4: NaN amounts contaminate the totals instead of
contributing zero -/

/-- Claim C4 counterexample: a single Debit record with a non-numeric
amount makes totalDebit NaN, not 0, so the record does not contribute
exactly 0 to totalDebit. -/
theorem claim_C4_counterexample :
    (stats [badBill]).totalDebit = JSNum.nan ∧ JSNum.nan ≠ JSNum.num 0 := by
  decide

/-- Claim C4 amended: a record whose amount is absent or non-numeric
contributes NaN, not 0: its presence makes the total of its own type NaN
(the Aggregator itself stays total and still returns a Statistics
value). -/
theorem claim_C4 (ts : List Transaction) (t : Transaction) (hm : t ∈ ts)
    (hn : toNumber t.amount = JSNum.nan) :
    (t.type = "Credit" → (stats ts).totalCredit = JSNum.nan) ∧
    (t.type = "Debit" → (stats ts).totalDebit = JSNum.nan) := by
  constructor
  · intro hty
    rw [stats_totalCredit]
    exact foldl_addAmount_mem_nan _ t
      (List.mem_filter.mpr ⟨hm, by simp [hty]⟩) hn _
  · intro hty
    rw [stats_totalDebit]
    exact foldl_addAmount_mem_nan _ t
      (List.mem_filter.mpr ⟨hm, by simp [hty]⟩) hn _

theorem claim_C4_witness :
    (badBill.type = "Credit" → (stats [badBill]).totalCredit = JSNum.nan) ∧
    (badBill.type = "Debit" → (stats [badBill]).totalDebit = JSNum.nan) :=
  claim_C4 [badBill] badBill (by decide) (by decide)

/-! Claim C5: unknown transaction types -/

/-- Claim C5: a transaction whose type is neither Credit nor Debit
contributes to neither totalCredit nor totalDebit, but its amount is
still added to its category's byCategory entry. -/
theorem claim_C5 (ts : List Transaction) (t : Transaction)
    (h : ∀ x ∈ ts, numericA x = true) (ht : numericA t = true)
    (hcr : t.type ≠ "Credit") (hdb : t.type ≠ "Debit") :
    (stats (ts ++ [t])).totalCredit = (stats ts).totalCredit ∧
    (stats (ts ++ [t])).totalDebit = (stats ts).totalDebit ∧
    getVal (stats (ts ++ [t])).byCategory t.category =
      some (JSNum.num (catSum ts t.category + amountZ t)) := by
  have hall : ∀ x ∈ ts ++ [t], numericA x = true := by
    intro x hx
    rcases List.mem_append.mp hx with h1 | h1
    · exact h x h1
    · rw [List.mem_singleton.mp h1]; exact ht
  refine ⟨?_, ?_, ?_⟩
  · rw [stats_totalCredit, stats_totalCredit, List.filter_append]
    simp [List.filter_cons, hcr]
  · rw [stats_totalDebit, stats_totalDebit, List.filter_append]
    simp [List.filter_cons, hdb]
  · rw [stats_byCategory, byCategory_spec _ hall t.category]
    have hmem : t.category ∈ (ts ++ [t]).map Transaction.category := by simp
    rw [if_pos hmem, catSum_append_single]
    simp

/-- A transaction with an unknown type, used to exercise claim C5. -/
def transferFood : Transaction :=
  { type := "Transfer", category := "Food",
    amount := JSVal.ofNum (JSNum.num 40), date := 0, createdAt := 2 }

theorem claim_C5_witness :
    (stats (sampleB ++ [transferFood])).totalCredit =
      (stats sampleB).totalCredit ∧
    (stats (sampleB ++ [transferFood])).totalDebit =
      (stats sampleB).totalDebit ∧
    getVal (stats (sampleB ++ [transferFood])).byCategory
        transferFood.category =
      some (JSNum.num (catSum sampleB transferFood.category +
        amountZ transferFood)) :=
  claim_C5 sampleB transferFood (by decide) (by decide) (by decide) (by decide)

/-! Claim C7: order of transactions does not affect the Statistics -/

theorem catSum_perm (ts1 ts2 : List Transaction) (hp : List.Perm ts1 ts2)
    (c : String) : catSum ts1 c = catSum ts2 c := by
  unfold catSum sumZ
  exact ((hp.filter _).map _).sum_eq

/-- Claim C7: for every input sequence and every permutation of it, the
Aggregator produces equal totalCredit, totalDebit, savings, and
byCategory values. -/
theorem claim_C7 (ts1 ts2 : List Transaction) (hp : List.Perm ts1 ts2)
    (h : ∀ t ∈ ts1, numericA t = true) :
    (stats ts1).totalCredit = (stats ts2).totalCredit ∧
    (stats ts1).totalDebit = (stats ts2).totalDebit ∧
    (stats ts1).savings = (stats ts2).savings ∧
    ∀ c, getVal (stats ts1).byCategory c = getVal (stats ts2).byCategory c := by
  have h2 : ∀ t ∈ ts2, numericA t = true :=
    fun t htm => h t (hp.mem_iff.mpr htm)
  have hcr : (stats ts1).totalCredit = (stats ts2).totalCredit := by
    rw [stats_totalCredit, stats_totalCredit]
    exact foldl_addAmount_perm _ _ (hp.filter _) _
  have hdb : (stats ts1).totalDebit = (stats ts2).totalDebit := by
    rw [stats_totalDebit, stats_totalDebit]
    exact foldl_addAmount_perm _ _ (hp.filter _) _
  refine ⟨hcr, hdb, ?_, ?_⟩
  · rw [stats_savings, stats_savings, hcr, hdb]
  · intro c
    rw [stats_byCategory, stats_byCategory, byCategory_spec _ h c,
      byCategory_spec _ h2 c]
    have hmm : (c ∈ ts1.map Transaction.category) ↔
        c ∈ ts2.map Transaction.category := (hp.map Transaction.category).mem_iff
    rw [catSum_perm ts1 ts2 hp c]
    simp only [hmm]

theorem claim_C7_witness :
    (stats sampleB).totalCredit = (stats sampleB.reverse).totalCredit ∧
    (stats sampleB).totalDebit = (stats sampleB.reverse).totalDebit ∧
    (stats sampleB).savings = (stats sampleB.reverse).savings ∧
    getVal (stats sampleB).byCategory "Food" =
      getVal (stats sampleB.reverse).byCategory "Food" :=
  ⟨(claim_C7 sampleB sampleB.reverse (List.reverse_perm sampleB).symm
      (by decide)).1,
   (claim_C7 sampleB sampleB.reverse (List.reverse_perm sampleB).symm
      (by decide)).2.1,
   (claim_C7 sampleB sampleB.reverse (List.reverse_perm sampleB).symm
      (by decide)).2.2.1,
   (claim_C7 sampleB sampleB.reverse (List.reverse_perm sampleB).symm
      (by decide)).2.2.2 "Food"⟩

/-! Claim C8: the snapshot pipeline is not capped -/

theorem totalDebit_replicate (n : ℕ) :
    (stats (List.replicate n unitDebit)).totalDebit = JSNum.num n := by
  rw [stats_totalDebit]
  have hf : (List.replicate n unitDebit).filter (fun t => t.type == "Debit") =
      List.replicate n unitDebit := by
    rw [List.filter_eq_self]
    intro a ha
    rw [List.eq_of_mem_replicate ha]
    decide
  rw [hf, foldl_addAmount_num _ 0
    (fun t htm => by rw [List.eq_of_mem_replicate htm]; decide)]
  have hs : sumZ (List.replicate n unitDebit) = n := by
    unfold sumZ
    rw [List.map_replicate, List.sum_replicate]
    have ha : amountZ unitDebit = 1 := by decide
    rw [ha]
    simp
  rw [hs, zero_add]

/-- Claim C8 counterexample: there is no fixed bound N such that for every
snapshot the Statistics agree with the Statistics of the N most recent
records; with N + 1 identical unit debits the totals differ from those of
every window of at most N records. -/
theorem claim_C8_counterexample :
    ¬ ∃ N : ℕ, ∀ docs : List Transaction, ∃ k : ℕ, k ≤ N ∧
      stats (subscribeSnapshot docs) =
        stats ((subscribeSnapshot docs).take k) := by
  rintro ⟨N, h⟩
  obtain ⟨k, hk, heq⟩ := h (List.replicate (N + 1) unitDebit)
  have hsub : subscribeSnapshot (List.replicate (N + 1) unitDebit) =
      List.replicate (N + 1) unitDebit := by
    unfold subscribeSnapshot
    have hperm := List.mergeSort_perm (List.replicate (N + 1) unitDebit)
      (fun a b => decide (txComparator a b ≤ 0))
    refine List.eq_replicate_iff.mpr ⟨?_, ?_⟩
    · rw [hperm.length_eq, List.length_replicate]
    · exact fun b hb => List.eq_of_mem_replicate (hperm.mem_iff.mp hb)
  rw [hsub, List.take_replicate] at heq
  have h3 := congrArg Stats.totalDebit heq
  rw [totalDebit_replicate, totalDebit_replicate] at h3
  have h4 := JSNum.num.inj h3
  omega

/-- Claim C8 amended: the snapshot pipeline applies no bound: it delivers
every record of the collection to the Aggregator, merely sorted, so the
Statistics are computed over the full collection (sorting leaves
totalCredit, totalDebit and savings unchanged). -/
theorem claim_C8 (docs : List Transaction) :
    List.Perm (subscribeSnapshot docs) docs ∧
    (stats (subscribeSnapshot docs)).totalCredit = (stats docs).totalCredit ∧
    (stats (subscribeSnapshot docs)).totalDebit = (stats docs).totalDebit ∧
    (stats (subscribeSnapshot docs)).savings = (stats docs).savings := by
  have hperm : List.Perm (subscribeSnapshot docs) docs :=
    List.mergeSort_perm _ _
  have hcr : (stats (subscribeSnapshot docs)).totalCredit =
      (stats docs).totalCredit := by
    rw [stats_totalCredit, stats_totalCredit]
    exact foldl_addAmount_perm _ _ (hperm.filter _) _
  have hdb : (stats (subscribeSnapshot docs)).totalDebit =
      (stats docs).totalDebit := by
    rw [stats_totalDebit, stats_totalDebit]
    exact foldl_addAmount_perm _ _ (hperm.filter _) _
  exact ⟨hperm, hcr, hdb, by rw [stats_savings, stats_savings, hcr, hdb]⟩

/-! Claim C9: amounts are coerced to numbers on both paths -/

theorem stats_coerce (ts : List Transaction) :
    stats (ts.map coerceTx) = stats ts := by
  unfold stats
  rw [List.filter_map, List.filter_map, List.foldl_map, List.foldl_map,
    List.foldl_map]
  rfl

/-- Claim C9: every transaction written by the create-transaction path has
its amount coerced to a number before storage, and the Aggregator reads
every amount only through the Number coercion, so pre-coercing every
amount leaves the Statistics unchanged. -/
theorem claim_C9 :
    (∀ (amount : FormAmount) (hasUser : Bool) (ty cat : String)
        (today createdAt : ℤ) (tab : String) (addDocOk : Bool)
        (tx : Transaction),
      (handleAddTransaction amount hasUser ty cat today createdAt tab
          addDocOk).written = some tx →
      tx.amount = JSVal.ofNum (formToNumber amount)) ∧
    (∀ ts : List Transaction, stats (ts.map coerceTx) = stats ts) := by
  constructor
  · intro amount hasUser ty cat today createdAt tab addDocOk tx hw
    unfold handleAddTransaction at hw
    by_cases hg : amount = FormAmount.empty ∨ hasUser = false
    · simp [hg] at hw
    · cases addDocOk with
      | false => simp [hg] at hw
      | true =>
        simp [hg] at hw
        rw [← hw]
  · exact stats_coerce

/-- A concrete document produced by a successful create-transaction
call. -/
def sampleWritten : Transaction :=
  { type := "Debit", category := "Food",
    amount := JSVal.ofNum (JSNum.num 5), date := 0, createdAt := 1 }

theorem claim_C9_witness :
    sampleWritten.amount = JSVal.ofNum (formToNumber (FormAmount.numStr 5)) ∧
    stats ([unitDebit].map coerceTx) = stats [unitDebit] :=
  ⟨claim_C9.1 (FormAmount.numStr 5) true "Debit" "Food" 0 1 "add" true
      sampleWritten (by decide),
   claim_C9.2 [unitDebit]⟩

/-! Claim C10: the create-transaction guard -/

/-- Claim C10: the create-transaction operation is a no-op when the form
amount is the empty string or when there is no authenticated user: it
writes no document, leaves the form state and active tab unchanged, and
shows no notification. -/
theorem claim_C10 (amount : FormAmount) (hasUser : Bool) (ty cat : String)
    (today createdAt : ℤ) (tab : String) (addDocOk : Bool)
    (h : amount = FormAmount.empty ∨ hasUser = false) :
    handleAddTransaction amount hasUser ty cat today createdAt tab addDocOk =
      { written := none, amountAfter := amount, notice := none,
        activeTab := tab } := by
  unfold handleAddTransaction
  rw [if_pos h]

theorem claim_C10_witness :
    handleAddTransaction FormAmount.empty true "Debit" "Food" 0 1
        "add" true =
      { written := none, amountAfter := FormAmount.empty, notice := none,
        activeTab := "add" } :=
  claim_C10 FormAmount.empty true "Debit" "Food" 0 1 "add" true
    (Or.inl rfl)
